import Mathlib

/-!
# Verification of the entropix quantized-attention transformer core

Shallow embedding of `entropix/model.py`. Tensors are modelled as a shape
tuple together with a total indexing function; machine floats are modelled
as exact rationals (the stages before the softmax) and as real numbers
(the softmax / weighted-sum stage, which needs `Real.exp`, and the
`sqrt(head_dim)` scaling). Dtype casts (`astype`) between float widths are
modelled as the identity; the `int8` dtype is modelled explicitly as
wrap-around arithmetic modulo 2^8. NumPy broadcasting and its failure mode
are modelled faithfully: every elementwise binary operation and matrix
product returns `Option`, with `none` playing the role of the runtime
shape/broadcast error.
-/

/-- Signed 8-bit wrap-around: the value an integer takes when stored in an
`int8`, i.e. the representative of its class mod 2^8 in `[-128, 127]`. -/
def wrap8 (z : ℤ) : ℤ :=
  (z + 128) % 256 - 128

/-- Round-half-to-even (the rounding used by `jnp.round`). -/
def roundHalfEven {α : Type} [LinearOrderedField α] [FloorRing α] (x : α) : ℤ :=
  if x - ⌊x⌋ < 1/2 then ⌊x⌋
  else if 1/2 < x - ⌊x⌋ then ⌊x⌋ + 1
  else if ⌊x⌋ % 2 = 0 then ⌊x⌋ else ⌊x⌋ + 1

/-- Maximum of `|f 0|, …, |f (n-1)|` (and `0` when `n = 0`); models
`jnp.max(jnp.abs(x), axis=-1)` on one row. -/
def maxAbsRange {α : Type} [LinearOrderedField α] (n : Nat) (f : Nat → α) : α :=
  (List.range n).foldr (fun i acc => max |f i| acc) 0

/-- A rank-4 tensor: a shape `(d0, d1, d2, d3)` plus a total indexing
function (entries outside the shape are junk and never observed). -/
@[ext]
structure Tensor4 (α : Type) where
  shape : Nat × Nat × Nat × Nat
  data : Nat → Nat → Nat → Nat → α

/-- Map a function over every entry. -/
def Tensor4.map {α β : Type} (f : α → β) (x : Tensor4 α) : Tensor4 β :=
  ⟨x.shape, fun b h i j => f (x.data b h i j)⟩

/-- NumPy broadcast of one axis: sizes must agree or one of them must be 1. -/
def bAxis (m n : Nat) : Option Nat :=
  if m = n then some m else if m = 1 then some n else if n = 1 then some m else none

/-- NumPy broadcast of two rank-4 shapes. -/
def bShape4 (s t : Nat × Nat × Nat × Nat) : Option (Nat × Nat × Nat × Nat) :=
  (bAxis s.1 t.1).bind fun a =>
    (bAxis s.2.1 t.2.1).bind fun b =>
      (bAxis s.2.2.1 t.2.2.1).bind fun c =>
        (bAxis s.2.2.2 t.2.2.2).map fun d => (a, b, c, d)

/-- Index into a possibly-broadcast axis: an axis of size 1 is read at 0. -/
def bIx (m i : Nat) : Nat :=
  if m = 1 then 0 else i

/-- Elementwise binary operation with NumPy broadcasting; `none` models the
runtime broadcast error on incompatible shapes. -/
def zipB {α β γ : Type} (f : α → β → γ) (x : Tensor4 α) (y : Tensor4 β) :
    Option (Tensor4 γ) :=
  (bShape4 x.shape y.shape).map fun s =>
    ⟨s, fun b h i j =>
      f (x.data (bIx x.shape.1 b) (bIx x.shape.2.1 h)
           (bIx x.shape.2.2.1 i) (bIx x.shape.2.2.2 j))
        (y.data (bIx y.shape.1 b) (bIx y.shape.2.1 h)
           (bIx y.shape.2.2.1 i) (bIx y.shape.2.2.2 j))⟩

/-- Batched matrix product over the last two axes (`jnp.matmul` on rank-4
inputs); `none` models the shape error when inner dimensions disagree. -/
def matmul4 {α : Type} [CommRing α] (x y : Tensor4 α) : Option (Tensor4 α) :=
  if x.shape.2.2.2 = y.shape.2.2.1 then
    (bAxis x.shape.1 y.shape.1).bind fun b =>
      (bAxis x.shape.2.1 y.shape.2.1).map fun h =>
        ⟨(b, h, x.shape.2.2.1, y.shape.2.2.2), fun bb hh i j =>
          ∑ t ∈ Finset.range x.shape.2.2.2,
            x.data (bIx x.shape.1 bb) (bIx x.shape.2.1 hh) i t *
              y.data (bIx y.shape.1 bb) (bIx y.shape.2.1 hh) t j⟩
  else none

/-- `jnp.matmul` on two `int8` tensors: the result dtype is again `int8`,
so every accumulated dot product wraps modulo 2^8. -/
def matmulInt8 (x y : Tensor4 ℤ) : Option (Tensor4 ℤ) :=
  if x.shape.2.2.2 = y.shape.2.2.1 then
    (bAxis x.shape.1 y.shape.1).bind fun b =>
      (bAxis x.shape.2.1 y.shape.2.1).map fun h =>
        ⟨(b, h, x.shape.2.2.1, y.shape.2.2.2), fun bb hh i j =>
          wrap8 (∑ t ∈ Finset.range x.shape.2.2.2,
            x.data (bIx x.shape.1 bb) (bIx x.shape.2.1 hh) i t *
              y.data (bIx y.shape.1 bb) (bIx y.shape.2.1 hh) t j)⟩
  else none

/-- Swap the last two axes: `jnp.transpose(x, (0, 1, 3, 2))`. -/
def transpose0132 {α : Type} (x : Tensor4 α) : Tensor4 α :=
  ⟨(x.shape.1, x.shape.2.1, x.shape.2.2.2, x.shape.2.2.1),
    fun b h i j => x.data b h j i⟩

/-- `jnp.transpose(x, (0, 2, 1, 3))`. -/
def transpose0213 {α : Type} (x : Tensor4 α) : Tensor4 α :=
  ⟨(x.shape.1, x.shape.2.2.1, x.shape.2.1, x.shape.2.2.2),
    fun b h i j => x.data b i h j⟩

/-- `jnp.transpose(x, (0, 2, 3, 1))`. -/
def transpose0231 {α : Type} (x : Tensor4 α) : Tensor4 α :=
  ⟨(x.shape.1, x.shape.2.2.1, x.shape.2.2.2, x.shape.2.1),
    fun b h i j => x.data b j h i⟩

/-- Mean over axis `-2` with `keepdims=True`: `jnp.mean(k, axis=-2,
keepdims=True)`. On the key tensor layout `[b, h, head_dim, kv_len]` this
averages over the `head_dim` axis. -/
def meanAxis2 {α : Type} [LinearOrderedField α] (x : Tensor4 α) : Tensor4 α :=
  ⟨(x.shape.1, x.shape.2.1, 1, x.shape.2.2.2), fun b h _ j =>
    (∑ i ∈ Finset.range x.shape.2.2.1, x.data b h i j) / (x.shape.2.2.1 : α)⟩

/-- Key smoothing, model.py line 37: `k = k - jnp.mean(k, axis=-2, keepdims=True)`. -/
def smoothK {α : Type} [LinearOrderedField α] (k : Tensor4 α) : Option (Tensor4 α) :=
  zipB (fun a b => a - b) k (meanAxis2 k)

/-- Symmetric per-row int8 quantization, model.py lines 40-43: for each row
along the last axis, `scale = max(abs(row)) / 127` and
`quantized = round(row / scale)` stored in an `int8`. Returns
`(x_int8, scale)`; the scale tensor keeps the broadcastable trailing axis
of size 1 (`keepdims=True`). -/
def quantize_int8 {α : Type} [LinearOrderedField α] [FloorRing α] (x : Tensor4 α) :
    Tensor4 ℤ × Tensor4 α :=
  let scale : Tensor4 α :=
    ⟨(x.shape.1, x.shape.2.1, x.shape.2.2.1, 1), fun b h i _ =>
      maxAbsRange x.shape.2.2.2 (fun j => x.data b h i j) / 127⟩
  (⟨x.shape, fun b h i j =>
      wrap8 (roundHalfEven (x.data b h i j / scale.data b h i 0))⟩,
   scale)

/-- Dequantized attention scores, model.py lines 36-50: optional key
smoothing, int8 quantization of `q` and `k`, int8 matrix product, cast to
float and elementwise multiply by `q_scale * transpose(k_scale, (0,1,3,2))`. -/
def dequantScores {α : Type} [LinearOrderedField α] [FloorRing α]
    (q k : Tensor4 α) (smooth_k : Bool) : Option (Tensor4 α) :=
  (if smooth_k then smoothK k else some k).bind fun k2 =>
    (matmulInt8 (quantize_int8 q).1 (quantize_int8 k2).1).bind fun s8 =>
      (zipB (fun a b => a * b) (quantize_int8 q).2
          (transpose0132 (quantize_int8 k2).2)).bind fun sc =>
        zipB (fun a b => a * b) (Tensor4.map (fun z : ℤ => (z : α)) s8) sc

/-- Addition of the optional explicit mask, model.py lines 53-54. -/
def addMask {α : Type} [LinearOrderedField α] (s : Tensor4 α) :
    Option (Tensor4 α) → Option (Tensor4 α)
  | none => some s
  | some m => zipB (fun a b => a + b) s m

/-- The causal mask of model.py lines 56-58:
`mask = jnp.tril(jnp.ones_like(scores)); scores = jnp.where(mask == 0, -inf, scores)`.
`jnp.tril` zeroes the entries with `j > i` of the last two axes, so exactly
those score positions become `-inf`; `-inf` is modelled as `none`. -/
def trilMask {α : Type} (s : Tensor4 α) : Tensor4 (Option α) :=
  ⟨s.shape, fun b h i j => if j ≤ i then some (s.data b h i j) else none⟩

/-- The causal branch: apply `trilMask` when the flag is set, otherwise keep
every score (all entries finite). -/
def maskWhere {α : Type} (is_causal : Bool) (s : Tensor4 α) : Tensor4 (Option α) :=
  if is_causal then trilMask s else s.map some

/-- The full masking stage of model.py lines 53-58: the explicit additive
mask first, then the causal mask. The result is the tensor the softmax is
applied to. -/
def maskScores {α : Type} [LinearOrderedField α] (s : Tensor4 α)
    (attn_mask : Option (Tensor4 α)) (is_causal : Bool) :
    Option (Tensor4 (Option α)) :=
  (addMask s attn_mask).map (maskWhere is_causal)

/-- `exp` extended to masked (`-inf`) entries: `exp(-inf) = 0`. -/
noncomputable def optExp : Option ℝ → ℝ
  | none => 0
  | some x => Real.exp x

/-- Softmax over the last axis in the presence of `-inf` entries, model.py
line 60 (`jax.nn.softmax(scores, axis=-1)`). -/
noncomputable def softmaxMasked (s : Tensor4 (Option ℝ)) : Tensor4 ℝ :=
  ⟨s.shape, fun b h i j =>
    optExp (s.data b h i j) /
      ∑ t ∈ Finset.range s.shape.2.2.2, optExp (s.data b h i t)⟩

/-- The model parameters used by the embedded functions. -/
structure ModelParams where
  head_dim : Nat
  n_layers : Nat
  n_local_heads : Nat
  n_local_kv_heads : Nat

/-- The `pre_scores` output of model.py line 51:
`scores / jnp.sqrt(model_params.head_dim)`. -/
noncomputable def preScale (s : Tensor4 ℝ) (mp : ModelParams) : Tensor4 ℝ :=
  ⟨s.shape, fun b h i j => s.data b h i j / Real.sqrt (mp.head_dim : ℝ)⟩

/-- SageAttention kernel, model.py lines 34-64. Float dtype casts
(`float16`/`float32`/`q.dtype`) are modelled as the identity; the division
of the returned `pre_scores` by `sqrt(head_dim)` and the softmax live in
`ℝ`. Note that per the source the masking and the softmax are applied to
the *unscaled* dequantized scores, not to `pre_scores`. -/
noncomputable def sageattn (q k v : Tensor4 ℝ) (mp : ModelParams)
    (attn_mask : Option (Tensor4 ℝ)) (is_causal smooth_k : Bool) :
    Option (Tensor4 ℝ × Tensor4 ℝ) :=
  (dequantScores q k smooth_k).bind fun s =>
    (maskScores s attn_mask is_causal).bind fun m =>
      (matmul4 (softmaxMasked m) v).map fun o => (o, preScale s mp)

/-- Coerce a rational tensor to a real tensor entrywise. -/
def castT4 (x : Tensor4 ℚ) : Tensor4 ℝ :=
  Tensor4.map (fun a : ℚ => (a : ℝ)) x

/-- Key smoothing as the specification words it (refinement comparison
definition, to be diffed against `smoothK`): subtract the mean of `K` over
the *key-length* axis (the last axis of the `[b, h, head_dim, kv_len]`
layout), one mean per batch/head/`head_dim`-channel. -/
def smoothKSpecKeyLen {α : Type} [LinearOrderedField α] (k : Tensor4 α) : Tensor4 α :=
  ⟨k.shape, fun b h i j =>
    k.data b h i j -
      (∑ t ∈ Finset.range k.shape.2.2.2, k.data b h i t) / (k.shape.2.2.2 : α)⟩

/-- Model parameters with `head_dim = 3` (used with `kv_len = 3` inputs). -/
def mp3 : ModelParams := ⟨3, 1, 1, 1⟩

/-- Model parameters with `head_dim = 4` (used with `kv_len = 4` inputs). -/
def mp4 : ModelParams := ⟨4, 1, 1, 1⟩

/-- Query tensor `[1, 1, 2, 3]` with both query rows `(1, 0, 0)`. -/
def qC : Tensor4 ℚ :=
  ⟨(1, 1, 2, 3), fun _ _ _ j => if j = 0 then 1 else 0⟩

/-- Key tensor `[1, 1, 3, 3]` (layout `[b, h, head_dim, kv_len]`); every
key-position column has channel-mean zero so smoothing leaves it unchanged. -/
def kA : Tensor4 ℚ :=
  ⟨(1, 1, 3, 3), fun _ _ c j =>
    if c = 0 then (if j = 0 then 1 else if j = 1 then 2 else if j = 2 then 1 else 0)
    else if c = 1 then (if j = 0 then -1 else if j = 1 then -2 else 0)
    else if c = 2 then (if j = 2 then -1 else 0)
    else 0⟩

/-- Same as `kA` except in the key at position 2 (the last column). -/
def kB : Tensor4 ℚ :=
  ⟨(1, 1, 3, 3), fun _ _ c j =>
    if c = 0 then (if j = 0 then 1 else if j = 1 then 2 else if j = 2 then 4 else 0)
    else if c = 1 then (if j = 0 then -1 else if j = 1 then -2 else 0)
    else if c = 2 then (if j = 2 then -4 else 0)
    else 0⟩

/-- Value tensor `[1, 1, 3, 3]`: rows `e0`, `e1`, `0`, so that the output
row at a query reads off the softmax weights directly. -/
def vC : Tensor4 ℚ :=
  ⟨(1, 1, 3, 3), fun _ _ r j =>
    if r = 0 ∧ j = 0 then 1 else if r = 1 ∧ j = 1 then 1 else 0⟩

/-- Single-query tensor `[1, 1, 1, 3]`, the decode-step query `(1, 0, 0)`. -/
def qDec : Tensor4 ℚ :=
  ⟨(1, 1, 1, 3), fun _ _ _ j => if j = 0 then 1 else 0⟩

/-- Query tensor `[1, 1, 1, 4]` with row `(1, 0, 0, 0)`. -/
def q3 : Tensor4 ℚ :=
  ⟨(1, 1, 1, 4), fun _ _ _ j => if j = 0 then 1 else 0⟩

/-- Key tensor `[1, 1, 4, 4]` whose key-position columns have channel-mean
zero (so smoothing is the identity on it). -/
def k3 : Tensor4 ℚ :=
  ⟨(1, 1, 4, 4), fun _ _ c j =>
    if c = 0 then (if j = 0 then 2 else if j = 1 then 1 else if j = 2 then 1 else if j = 3 then 3 else 0)
    else if c = 1 then (if j = 0 then -2 else if j = 1 then -1 else if j = 2 then 1 else if j = 3 then -3 else 0)
    else if c = 2 then (if j = 2 then -1 else 0)
    else if c = 3 then (if j = 2 then -1 else 0)
    else 0⟩

/-- Zero value tensor `[1, 1, 4, 4]`. -/
def v3 : Tensor4 ℚ :=
  ⟨(1, 1, 4, 4), fun _ _ _ _ => 0⟩

/-- Well-formed `[1, 1, 1, 4]` query for the shape-mismatch counterexample. -/
def q1 : Tensor4 ℚ :=
  ⟨(1, 1, 1, 4), fun _ _ _ j => (j : ℚ) + 1⟩

/-- Well-formed `[1, 1, 4, 2]` key tensor (`head_dim = 4`, `kv_len = 2`). -/
def k1 : Tensor4 ℚ :=
  ⟨(1, 1, 4, 2), fun _ _ c j => (c : ℚ) + (j : ℚ) + 1⟩

/-- Well-formed `[1, 1, 2, 4]` value tensor (`kv_len = 2`, `head_dim = 4`). -/
def v1 : Tensor4 ℚ :=
  ⟨(1, 1, 2, 4), fun _ _ _ _ => 1⟩

/-- The `[1, 1, 2, 2]` key tensor of the smoothing-axis counterexample:
channel rows `(1, 2)` and `(3, 4)`. -/
def k4 : Tensor4 ℚ :=
  ⟨(1, 1, 2, 2), fun _ _ c j =>
    if c = 0 then (if j = 0 then 1 else 2)
    else if c = 1 then (if j = 0 then 3 else 4)
    else 0⟩

/-- The value `smoothK` always produces (`smoothK` never fails: the shapes
`(B,H,D,N)` and `(B,H,1,N)` always broadcast). -/
def smoothKval {α : Type} [LinearOrderedField α] (k : Tensor4 α) : Tensor4 α :=
  ⟨k.shape, fun b h i j =>
    k.data (bIx k.shape.1 b) (bIx k.shape.2.1 h)
        (bIx k.shape.2.2.1 i) (bIx k.shape.2.2.2 j) -
      (∑ t ∈ Finset.range k.shape.2.2.1,
        k.data (bIx k.shape.1 b) (bIx k.shape.2.1 h) t (bIx k.shape.2.2.2 j)) /
        (k.shape.2.2.1 : α)⟩

/-- A rank-2 tensor (a matrix, or a batch of token ids). -/
@[ext]
structure Tensor2 (α : Type) where
  shape : Nat × Nat
  data : Nat → Nat → α

/-- A rank-3 tensor. -/
@[ext]
structure Tensor3 (α : Type) where
  shape : Nat × Nat × Nat
  data : Nat → Nat → Nat → α

/-- Matrix transpose (`w.T`). -/
def transpose2 {α : Type} (w : Tensor2 α) : Tensor2 α :=
  ⟨(w.shape.2, w.shape.1), fun i j => w.data j i⟩

/-- `jnp.dot` of a rank-3 tensor with a matrix: contract the last axis of
`x` with the first axis of `w`. -/
def dot3 {α : Type} [CommRing α] (x : Tensor3 α) (w : Tensor2 α) : Tensor3 α :=
  ⟨(x.shape.1, x.shape.2.1, w.shape.2), fun b s m =>
    ∑ e ∈ Finset.range x.shape.2.2, x.data b s e * w.data e m⟩

/-- `x.reshape(bsz, -1, heads, head_dim)`: split the trailing axis. -/
def reshape34 {α : Type} (x : Tensor3 α) (heads head_dim : Nat) : Tensor4 α :=
  ⟨(x.shape.1, x.shape.2.1, heads, head_dim), fun b s hh dd =>
    x.data b s (hh * head_dim + dd)⟩

/-- `x.reshape(bsz, seqlen, -1)`: flatten the two trailing axes. -/
def reshape43 {α : Type} (x : Tensor4 α) : Tensor3 α :=
  ⟨(x.shape.1, x.shape.2.1, x.shape.2.2.1 * x.shape.2.2.2), fun b s m =>
    x.data b s (m / x.shape.2.2.2) (m % x.shape.2.2.2)⟩

/-- The rotary rotation of one tensor, model.py lines 24-31: the trailing
`head_dim` axis is reinterpreted as `head_dim/2` complex pairs
(`real = even index`, `imaginary = odd index`), each pair `m` is multiplied
by the complex number `freqs_cis s m` (modelled as a `(re, im)` pair and
broadcast over batch and heads via `freqs_cis[None, :, None, :]`), and the
pairs are restacked interleaved. The `float32`/output-dtype casts are
modelled as the identity. -/
def rotateHalf {α : Type} [CommRing α] (freqs_cis : Nat → Nat → α × α)
    (x : Tensor4 α) : Tensor4 α :=
  ⟨x.shape, fun b s h i =>
    if i % 2 = 0 then
      x.data b s h (2 * (i / 2)) * (freqs_cis s (i / 2)).1 -
        x.data b s h (2 * (i / 2) + 1) * (freqs_cis s (i / 2)).2
    else
      x.data b s h (2 * (i / 2)) * (freqs_cis s (i / 2)).2 +
        x.data b s h (2 * (i / 2) + 1) * (freqs_cis s (i / 2)).1⟩

/-- `apply_rotary_emb`, model.py lines 23-32: rotate both `xq` and `xk`. -/
def apply_rotary_emb {α : Type} [CommRing α] (xq xk : Tensor4 α)
    (freqs_cis : Nat → Nat → α × α) : Tensor4 α × Tensor4 α :=
  (rotateHalf freqs_cis xq, rotateHalf freqs_cis xk)

/-- The `eps` default of `rms_norm`. -/
noncomputable def rmsEps : ℝ := 1 / 1000000

/-- `rms_norm`, model.py lines 18-19:
`w * (x * rsqrt(mean(x^2, axis=-1, keepdims=True) + eps))`. -/
noncomputable def rms_norm (x : Tensor3 ℝ) (w : Nat → ℝ) : Tensor3 ℝ :=
  ⟨x.shape, fun b s e =>
    w e * (x.data b s e *
      (Real.sqrt ((∑ t ∈ Finset.range x.shape.2.2, x.data b s t ^ 2) /
          (x.shape.2.2 : ℝ) + rmsEps))⁻¹)⟩

/-- `jax.nn.silu`: `x * sigmoid(x)`. -/
noncomputable def silu (x : ℝ) : ℝ :=
  x * (1 + Real.exp (-x))⁻¹

/-- Elementwise product of two same-shape rank-3 tensors. -/
def mulT3 {α : Type} [Mul α] (x y : Tensor3 α) : Tensor3 α :=
  ⟨x.shape, fun b s e => x.data b s e * y.data b s e⟩

/-- Elementwise sum of two same-shape rank-3 tensors (the residual adds). -/
def addT3 {α : Type} [Add α] (x y : Tensor3 α) : Tensor3 α :=
  ⟨x.shape, fun b s e => x.data b s e + y.data b s e⟩

/-- The per-layer weights used by the embedded layer. -/
structure LayerWeights where
  wq : Tensor2 ℝ
  wk : Tensor2 ℝ
  wv : Tensor2 ℝ
  wo : Tensor2 ℝ
  w1 : Tensor2 ℝ
  w2 : Tensor2 ℝ
  w3 : Tensor2 ℝ
  ffn_norm : Nat → ℝ
  attention_norm : Nat → ℝ

/-- The full-model weights used by `xfmr`. -/
structure XfmrWeights where
  tok_embeddings : Tensor2 ℝ
  norm : Nat → ℝ
  output : Tensor2 ℝ
  layer_weights : Nat → LayerWeights

/-- `feed_forward`, model.py lines 91-92:
`dot(silu(dot(x, w1.T)) * dot(x, w3.T), w2.T)`. -/
noncomputable def feed_forward (x : Tensor3 ℝ) (lw : LayerWeights) : Tensor3 ℝ :=
  dot3 (mulT3 ⟨(dot3 x (transpose2 lw.w1)).shape, fun b s e =>
      silu ((dot3 x (transpose2 lw.w1)).data b s e)⟩
    (dot3 x (transpose2 lw.w3))) (transpose2 lw.w2)

/-- Modelled from the spec: the key/value cache (`entropix/kvcache.py` is
not part of the provided sources). Per spec §3 it owns per-layer,
per-position key and value projections, here as unbounded index functions
`layer → batch → position → kv_head → head_dim → ℝ` (the spec's maximum
length bound and its capacity error are not modelled; no claim concerns
them). -/
structure KVCache where
  k : Nat → Nat → Nat → Nat → Nat → ℝ
  v : Nat → Nat → Nat → Nat → Nat → ℝ

/-- Modelled from the spec (§4.2): `update(xk, xv, layer_idx, cur_pos, n_rep)`
writes the step's projections (shape `[bsz, step_len, kv_heads, head_dim]`)
at positions `[cur_pos, cur_pos + step_len)` of layer `layer_idx`, and
returns all keys/values of positions `[0, cur_pos + step_len)` with the
kv-head axis repeated `n_rep` times (each kv head duplicated contiguously),
together with the updated cache. -/
noncomputable def KVCache.update (c : KVCache) (xk xv : Tensor4 ℝ)
    (layer_idx cur_pos n_rep : Nat) : Tensor4 ℝ × Tensor4 ℝ × KVCache :=
  let step := xk.shape.2.1
  let k2 : Nat → Nat → Nat → Nat → Nat → ℝ := fun l b p hh d =>
    if l = layer_idx ∧ cur_pos ≤ p ∧ p < cur_pos + step then
      xk.data b (p - cur_pos) hh d
    else c.k l b p hh d
  let v2 : Nat → Nat → Nat → Nat → Nat → ℝ := fun l b p hh d =>
    if l = layer_idx ∧ cur_pos ≤ p ∧ p < cur_pos + step then
      xv.data b (p - cur_pos) hh d
    else c.v l b p hh d
  (⟨(xk.shape.1, cur_pos + step, xk.shape.2.2.1 * n_rep, xk.shape.2.2.2),
      fun b p hq d => k2 layer_idx b p (hq / n_rep) d⟩,
   ⟨(xv.shape.1, cur_pos + step, xv.shape.2.2.1 * n_rep, xv.shape.2.2.2),
      fun b p hq d => v2 layer_idx b p (hq / n_rep) d⟩,
   ⟨k2, v2⟩)

/-- Modelled from the spec (§3): the `AttnStats` accumulator
(`entropix/stats.py` is not part of the provided sources). Its internal
analysis is out of scope; the contract is only that it is created with the
`[batch, layers, heads]` dimensions and receives one `[batch, heads, kv]`
scores tensor per layer, so it is modelled as a recorder of the sequence of
`update` calls. -/
structure AttnStats where
  bsz : Nat
  n_layers : Nat
  n_heads : Nat
  updates : List (Nat × Tensor3 ℝ)

/-- Modelled from the spec: a fresh accumulator with no updates. -/
def AttnStats.new (bsz n_layers n_heads : Nat) : AttnStats :=
  ⟨bsz, n_layers, n_heads, []⟩

/-- Modelled from the spec: record one per-layer update
(`attn_stats.update(scores, layer_idx)`). -/
def AttnStats.update (st : AttnStats) (scores : Tensor3 ℝ) (layer_idx : Nat) :
    AttnStats :=
  ⟨st.bsz, st.n_layers, st.n_heads, st.updates ++ [(layer_idx, scores)]⟩

/-- `scores[:, :, -1, :]`: the scores at the last query position. -/
def lastPos (t : Tensor4 ℝ) : Tensor3 ℝ :=
  ⟨(t.shape.1, t.shape.2.1, t.shape.2.2.2), fun b h j =>
    t.data b h (t.shape.2.2.1 - 1) j⟩

/-- `attention`, model.py lines 67-88: project `x` to per-head q/k/v, apply
the rotary transform, update the cache, transpose into the kernel's
layouts, run `sageattn` with `is_causal = (cur_pos > 0)` (line 81), and
project the output back. -/
noncomputable def attention (x : Tensor3 ℝ) (lw : LayerWeights)
    (mp : ModelParams) (cur_pos layer_idx : Nat)
    (freqs_cis : Nat → Nat → ℝ × ℝ) (kvcache : KVCache)
    (attn_mask : Option (Tensor4 ℝ)) :
    Option (Tensor3 ℝ × KVCache × Tensor4 ℝ) :=
  let n_rep := mp.n_local_heads / mp.n_local_kv_heads
  let xq := reshape34 (dot3 x (transpose2 lw.wq)) mp.n_local_heads mp.head_dim
  let xk := reshape34 (dot3 x (transpose2 lw.wk)) mp.n_local_kv_heads mp.head_dim
  let xv := reshape34 (dot3 x (transpose2 lw.wv)) mp.n_local_kv_heads mp.head_dim
  let rot := apply_rotary_emb xq xk freqs_cis
  let upd := KVCache.update kvcache rot.2 xv layer_idx cur_pos n_rep
  (sageattn (transpose0213 rot.1) (transpose0231 upd.1) (transpose0213 upd.2.1)
      mp attn_mask (decide (0 < cur_pos)) true).map fun r =>
    (dot3 (reshape43 (transpose0213 r.1)) (transpose2 lw.wo), upd.2.2, r.2)

/-- The transformer layer's attention step as the spec words it for a call
with the causal mask applied (refinement comparison definition): identical
to `attention` except that the kernel's causal flag is unconditionally on. -/
noncomputable def attentionCausal (x : Tensor3 ℝ) (lw : LayerWeights)
    (mp : ModelParams) (cur_pos layer_idx : Nat)
    (freqs_cis : Nat → Nat → ℝ × ℝ) (kvcache : KVCache)
    (attn_mask : Option (Tensor4 ℝ)) :
    Option (Tensor3 ℝ × KVCache × Tensor4 ℝ) :=
  let n_rep := mp.n_local_heads / mp.n_local_kv_heads
  let xq := reshape34 (dot3 x (transpose2 lw.wq)) mp.n_local_heads mp.head_dim
  let xk := reshape34 (dot3 x (transpose2 lw.wk)) mp.n_local_kv_heads mp.head_dim
  let xv := reshape34 (dot3 x (transpose2 lw.wv)) mp.n_local_kv_heads mp.head_dim
  let rot := apply_rotary_emb xq xk freqs_cis
  let upd := KVCache.update kvcache rot.2 xv layer_idx cur_pos n_rep
  (sageattn (transpose0213 rot.1) (transpose0231 upd.1) (transpose0213 upd.2.1)
      mp attn_mask true true).map fun r =>
    (dot3 (reshape43 (transpose0213 r.1)) (transpose2 lw.wo), upd.2.2, r.2)

/-- The transformer layer's attention step as the spec words it for a call
with no causal mask (refinement comparison definition): identical to
`attention` except that the kernel's causal flag is unconditionally off. -/
noncomputable def attentionNoCausal (x : Tensor3 ℝ) (lw : LayerWeights)
    (mp : ModelParams) (cur_pos layer_idx : Nat)
    (freqs_cis : Nat → Nat → ℝ × ℝ) (kvcache : KVCache)
    (attn_mask : Option (Tensor4 ℝ)) :
    Option (Tensor3 ℝ × KVCache × Tensor4 ℝ) :=
  let n_rep := mp.n_local_heads / mp.n_local_kv_heads
  let xq := reshape34 (dot3 x (transpose2 lw.wq)) mp.n_local_heads mp.head_dim
  let xk := reshape34 (dot3 x (transpose2 lw.wk)) mp.n_local_kv_heads mp.head_dim
  let xv := reshape34 (dot3 x (transpose2 lw.wv)) mp.n_local_kv_heads mp.head_dim
  let rot := apply_rotary_emb xq xk freqs_cis
  let upd := KVCache.update kvcache rot.2 xv layer_idx cur_pos n_rep
  (sageattn (transpose0213 rot.1) (transpose0231 upd.1) (transpose0213 upd.2.1)
      mp attn_mask false true).map fun r =>
    (dot3 (reshape43 (transpose0213 r.1)) (transpose2 lw.wo), upd.2.2, r.2)

/-- The state threaded through the layer loop of `xfmr`: the hidden state,
the cache, the last computed scores (none before the first layer, matching
the Python name-error were `n_layers = 0`), and the stats accumulator. -/
structure LoopSt where
  h : Tensor3 ℝ
  kv : KVCache
  scores : Option (Tensor4 ℝ)
  stats : AttnStats

/-- One iteration of the `xfmr` layer loop, model.py lines 103-107. -/
noncomputable def xfmrLayerStep (w : XfmrWeights) (mp : ModelParams)
    (cur_pos : Nat) (freqs_cis : Nat → Nat → ℝ × ℝ)
    (attn_mask : Option (Tensor4 ℝ)) (s : LoopSt) (i : Nat) : Option LoopSt :=
  (attention (rms_norm s.h (w.layer_weights i).attention_norm)
      (w.layer_weights i) mp cur_pos i freqs_cis s.kv attn_mask).map fun r =>
    let h2 := addT3 s.h r.1
    ⟨addT3 h2 (feed_forward (rms_norm h2 (w.layer_weights i).ffn_norm)
        (w.layer_weights i)),
     r.2.1, some r.2.2, s.stats.update (lastPos r.2.2) i⟩

/-- The embedding lookup `xfmr_weights.tok_embeddings[tokens]`. -/
def embedTokens (w : XfmrWeights) (tokens : Tensor2 Nat) : Tensor3 ℝ :=
  ⟨(tokens.shape.1, tokens.shape.2, w.tok_embeddings.shape.2), fun b s e =>
    w.tok_embeddings.data (tokens.data b s) e⟩

/-- `xfmr`, model.py lines 95-109: embed the tokens, create a fresh
`AttnStats`, run the layer loop in index order threading hidden state,
cache and stats, then final-normalize and project to logits, returning the
logits, the final cache, the last layer's pre-softmax scores and the stats. -/
noncomputable def xfmr (w : XfmrWeights) (mp : ModelParams)
    (tokens : Tensor2 Nat) (cur_pos : Nat) (freqs_cis : Nat → Nat → ℝ × ℝ)
    (kvcache : KVCache) (attn_mask : Option (Tensor4 ℝ)) :
    Option (Tensor3 ℝ × KVCache × Tensor4 ℝ × AttnStats) :=
  ((List.range mp.n_layers).foldlM
      (xfmrLayerStep w mp cur_pos freqs_cis attn_mask)
      ⟨embedTokens w tokens, kvcache, none,
        AttnStats.new tokens.shape.1 mp.n_layers mp.n_local_heads⟩).bind
    fun s =>
      match s.scores with
      | some sc =>
          some (dot3 (rms_norm s.h w.norm) (transpose2 w.output), s.kv, sc, s.stats)
      | none => none

/-- The layer recursion as the spec words the orchestrator (refinement
comparison definition): process the given layer indices strictly in order,
each layer consuming the previous hidden state and cache, and collect the
per-layer pre-softmax score tensors as an in-order list. -/
noncomputable def runLayersInOrder (w : XfmrWeights) (mp : ModelParams)
    (cur_pos : Nat) (freqs_cis : Nat → Nat → ℝ × ℝ)
    (attn_mask : Option (Tensor4 ℝ)) (h : Tensor3 ℝ) (kv : KVCache) :
    List Nat → Option (Tensor3 ℝ × KVCache × List (Nat × Tensor4 ℝ))
  | [] => some (h, kv, [])
  | i :: rest =>
      (attention (rms_norm h (w.layer_weights i).attention_norm)
          (w.layer_weights i) mp cur_pos i freqs_cis kv attn_mask).bind fun r =>
        let h2 := addT3 h r.1
        let h3 := addT3 h2 (feed_forward (rms_norm h2 (w.layer_weights i).ffn_norm)
            (w.layer_weights i))
        (runLayersInOrder w mp cur_pos freqs_cis attn_mask h3 r.2.1 rest).map
          fun rec2 => (rec2.1, rec2.2.1, (i, r.2.2) :: rec2.2.2)

/-- The forward orchestrator as the spec words it (refinement comparison
definition): all `n_layers` layers run strictly in order via
`runLayersInOrder`; the `AttnStats` accumulator holds exactly one update
per layer, in layer order, each with that layer's scores at the last query
position; and the returned scores are the last layer's. -/
noncomputable def xfmrOrderedSpec (w : XfmrWeights) (mp : ModelParams)
    (tokens : Tensor2 Nat) (cur_pos : Nat) (freqs_cis : Nat → Nat → ℝ × ℝ)
    (kvcache : KVCache) (attn_mask : Option (Tensor4 ℝ)) :
    Option (Tensor3 ℝ × KVCache × Tensor4 ℝ × AttnStats) :=
  (runLayersInOrder w mp cur_pos freqs_cis attn_mask
      (embedTokens w tokens) kvcache (List.range mp.n_layers)).bind fun r =>
    ((r.2.2.map Prod.snd).getLast?).map fun lastSc =>
      (dot3 (rms_norm r.1 w.norm) (transpose2 w.output), r.2.1, lastSc,
        ⟨tokens.shape.1, mp.n_layers, mp.n_local_heads,
          r.2.2.map fun p => (p.1, lastPos p.2)⟩)

/-- The last element of a list of scores, or a fallback (used to relate the
loop accumulator of `xfmr` to the collected list of `runLayersInOrder`). -/
def lastOr {α : Type} (sc0 : Option α) (l : List α) : Option α :=
  match l.getLast? with
  | some a => some a
  | none => sc0

/-- Witness query for the int8-wrap theorem: `[1, 1, 1, 2]`, row `(1, 0)`. -/
def qW6 : Tensor4 ℚ :=
  ⟨(1, 1, 1, 2), fun _ _ _ j => if j = 0 then 1 else 0⟩

/-- Witness key for the int8-wrap theorem: `[1, 1, 2, 2]`. -/
def kW6 : Tensor4 ℚ :=
  ⟨(1, 1, 2, 2), fun _ _ c j =>
    if c = 0 then (if j = 0 then 1 else 300)
    else if c = 1 then (if j = 0 then 0 else 1)
    else 0⟩

/-- Witness row for the quantization round-trip bound: `(1, 2, 3)`. -/
def xW7 : Tensor4 ℚ :=
  ⟨(1, 1, 1, 3), fun _ _ _ j => (j : ℚ) + 1⟩

/-- Witness query input for the rotary identity. -/
def xqW8 : Tensor4 ℚ :=
  ⟨(1, 1, 1, 2), fun _ _ _ i => (i : ℚ) + 5⟩

/-- Witness key input for the rotary identity. -/
def xkW8 : Tensor4 ℚ :=
  ⟨(1, 1, 1, 2), fun _ _ _ i => (i : ℚ) - 7⟩

/-- The all-ones (angle 0) rotation tensor. -/
def frW8 : Nat → Nat → ℚ × ℚ :=
  fun _ _ => (1, 0)

/-- Witness hidden state for the causal-flag theorem. -/
noncomputable def xW9 : Tensor3 ℝ :=
  ⟨(1, 1, 1), fun _ _ _ => 1⟩

/-- Witness layer weights (all-ones 1×1 matrices). -/
noncomputable def lwW9 : LayerWeights :=
  ⟨⟨(1, 1), fun _ _ => 1⟩, ⟨(1, 1), fun _ _ => 1⟩, ⟨(1, 1), fun _ _ => 1⟩,
   ⟨(1, 1), fun _ _ => 1⟩, ⟨(1, 1), fun _ _ => 1⟩, ⟨(1, 1), fun _ _ => 1⟩,
   ⟨(1, 1), fun _ _ => 1⟩, fun _ => 1, fun _ => 1⟩

/-- Witness model parameters (`head_dim = 1`, one head). -/
def mpW9 : ModelParams := ⟨1, 2, 1, 1⟩

/-- Witness all-ones rotation tensor over `ℝ`. -/
noncomputable def frW9 : Nat → Nat → ℝ × ℝ :=
  fun _ _ => (1, 0)

/-- Witness empty cache. -/
noncomputable def kvW9 : KVCache :=
  ⟨fun _ _ _ _ _ => 0, fun _ _ _ _ _ => 0⟩

/-- Real-valued copy of `q3` (`[1,1,1,4]`, row `(1,0,0,0)`). -/
noncomputable def q3R : Tensor4 ℝ :=
  ⟨(1, 1, 1, 4), fun _ _ _ j => if j = 0 then 1 else 0⟩

/-- Real-valued copy of `k3` (`[1,1,4,4]`). -/
noncomputable def k3R : Tensor4 ℝ :=
  ⟨(1, 1, 4, 4), fun _ _ c j =>
    if c = 0 then (if j = 0 then 2 else if j = 1 then 1 else if j = 2 then 1 else if j = 3 then 3 else 0)
    else if c = 1 then (if j = 0 then -2 else if j = 1 then -1 else if j = 2 then 1 else if j = 3 then -3 else 0)
    else if c = 2 then (if j = 2 then -1 else 0)
    else if c = 3 then (if j = 2 then -1 else 0)
    else 0⟩

/-- Real-valued zero value tensor `[1,1,4,4]`. -/
noncomputable def v3R : Tensor4 ℝ :=
  ⟨(1, 1, 4, 4), fun _ _ _ _ => 0⟩

/-- Real-valued copy of `qC` (`[1,1,2,3]`, both query rows `(1,0,0)`). -/
noncomputable def qCR : Tensor4 ℝ :=
  ⟨(1, 1, 2, 3), fun _ _ _ j => if j = 0 then 1 else 0⟩

/-- Real-valued copy of `kA`. -/
noncomputable def kAR : Tensor4 ℝ :=
  ⟨(1, 1, 3, 3), fun _ _ c j =>
    if c = 0 then (if j = 0 then 1 else if j = 1 then 2 else if j = 2 then 1 else 0)
    else if c = 1 then (if j = 0 then -1 else if j = 1 then -2 else 0)
    else if c = 2 then (if j = 2 then -1 else 0)
    else 0⟩

/-- Real-valued copy of `kB`: identical to `kAR` except in the key at
position 2 (the last column). -/
noncomputable def kBR : Tensor4 ℝ :=
  ⟨(1, 1, 3, 3), fun _ _ c j =>
    if c = 0 then (if j = 0 then 1 else if j = 1 then 2 else if j = 2 then 4 else 0)
    else if c = 1 then (if j = 0 then -1 else if j = 1 then -2 else 0)
    else if c = 2 then (if j = 2 then -4 else 0)
    else 0⟩

/-- Real-valued copy of `vC` (rows `e0`, `e1`, `0`). -/
noncomputable def vCR : Tensor4 ℝ :=
  ⟨(1, 1, 3, 3), fun _ _ r j =>
    if r = 0 ∧ j = 0 then 1 else if r = 1 ∧ j = 1 then 1 else 0⟩

theorem bAxis_self (m : Nat) : bAxis m m = some m := by
  simp [bAxis]

theorem bAxis_one_right (m : Nat) : bAxis m 1 = some m := by
  rcases eq_or_ne m 1 with h | h <;> simp [bAxis, h]

theorem bAxis_one_left (n : Nat) : bAxis 1 n = some n := by
  rcases eq_or_ne n 1 with h | h <;> simp [bAxis, h]

theorem bIx_of_lt {i m : Nat} (h : i < m) : bIx m i = i := by
  unfold bIx
  split <;> omega

theorem bIx_one (i : Nat) : bIx 1 i = 0 := rfl

theorem quantize1_shape {α : Type} [LinearOrderedField α] [FloorRing α]
    (x : Tensor4 α) : (quantize_int8 x).1.shape = x.shape := rfl

theorem quantize2_shape {α : Type} [LinearOrderedField α] [FloorRing α]
    (x : Tensor4 α) :
    (quantize_int8 x).2.shape = (x.shape.1, x.shape.2.1, x.shape.2.2.1, 1) := rfl

theorem quantize1_data {α : Type} [LinearOrderedField α] [FloorRing α]
    (x : Tensor4 α) (b h i j : Nat) :
    (quantize_int8 x).1.data b h i j =
      wrap8 (roundHalfEven (x.data b h i j /
        (maxAbsRange x.shape.2.2.2 (fun t => x.data b h i t) / 127))) := rfl

theorem quantize2_data {α : Type} [LinearOrderedField α] [FloorRing α]
    (x : Tensor4 α) (b h i j : Nat) :
    (quantize_int8 x).2.data b h i j =
      maxAbsRange x.shape.2.2.2 (fun t => x.data b h i t) / 127 := rfl

theorem smoothKval_shape {α : Type} [LinearOrderedField α] (k : Tensor4 α) :
    (smoothKval k).shape = k.shape := rfl

theorem smoothK_eq {α : Type} [LinearOrderedField α] (k : Tensor4 α) :
    smoothK k = some (smoothKval k) := by
  obtain ⟨⟨B, H, D, N⟩, d⟩ := k
  simp only [smoothK, zipB, bShape4, meanAxis2, smoothKval]
  simp only [bAxis_self, bAxis_one_right, Option.bind_some, Option.map_some]
  rfl

theorem maskScores_none_true {α : Type} [LinearOrderedField α] (s : Tensor4 α) :
    maskScores s none true = some (trilMask s) := rfl

theorem maskScores_none_false {α : Type} [LinearOrderedField α] (s : Tensor4 α) :
    maskScores s none false = some (s.map some) := rfl

theorem dequantScores_entry {α : Type} [LinearOrderedField α] [FloorRing α]
    (q k : Tensor4 α) (sk : Bool) (B H M D : Nat)
    (hq : q.shape = (B, H, M, D)) (hk : k.shape = (B, H, D, D))
    (b h i j : Nat) (hb : b < B) (hh : h < H) (hi : i < M) (hj : j < D) :
    (dequantScores q k sk).map (fun t => t.data b h i j)
      = (if sk then smoothK k else some k).map (fun ksm =>
          ((wrap8 (∑ t ∈ Finset.range D,
              (quantize_int8 q).1.data b h i t *
                (quantize_int8 ksm).1.data b h t j) : ℤ) : α) *
            ((quantize_int8 q).2.data b h i 0 *
              (quantize_int8 ksm).2.data b h j 0)) := by
  have hks : (if sk then smoothK k else some k)
      = some (if sk then smoothKval k else k) := by
    cases sk <;> simp [smoothK_eq]
  set ksm := if sk then smoothKval k else k with hksm_def
  have hksm : ksm.shape = (B, H, D, D) := by
    cases sk <;> simp [hksm_def, smoothKval_shape, hk]
  rw [dequantScores, hks, Option.some_bind]
  have h1 : matmulInt8 (quantize_int8 q).1 (quantize_int8 ksm).1
      = some ⟨(B, H, M, D), fun bb hh2 i2 j2 =>
          wrap8 (∑ t ∈ Finset.range D,
            (quantize_int8 q).1.data (bIx B bb) (bIx H hh2) i2 t *
              (quantize_int8 ksm).1.data (bIx B bb) (bIx H hh2) t j2)⟩ := by
    rw [matmulInt8]
    simp [quantize1_shape, hq, hksm, bAxis_self]
  have h2 : zipB (fun a b => a * b) (quantize_int8 q).2
      (transpose0132 (quantize_int8 ksm).2)
      = some ⟨(B, H, M, D), fun bb hh2 i2 j2 =>
          (quantize_int8 q).2.data (bIx B bb) (bIx H hh2) (bIx M i2) 0 *
            (quantize_int8 ksm).2.data (bIx B bb) (bIx H hh2) (bIx D j2) 0⟩ := by
    rw [zipB]
    simp [quantize2_shape, transpose0132, hq, hksm, bShape4, bAxis_self,
      bAxis_one_right, bAxis_one_left, bIx_one]
  rw [h1, Option.some_bind, h2, Option.some_bind, zipB]
  simp only [Tensor4.map, bShape4, bAxis_self, Option.some_bind, Option.map_some]
  simp [bIx_of_lt hb, bIx_of_lt hh, bIx_of_lt hi, bIx_of_lt hj]

theorem dequantScores_shape {α : Type} [LinearOrderedField α] [FloorRing α]
    (q k : Tensor4 α) (sk : Bool) (B H M D : Nat)
    (hq : q.shape = (B, H, M, D)) (hk : k.shape = (B, H, D, D)) :
    (dequantScores q k sk).map (fun t => t.shape)
      = (if sk then smoothK k else some k).map (fun _ => (B, H, M, D)) := by
  have hks : (if sk then smoothK k else some k)
      = some (if sk then smoothKval k else k) := by
    cases sk <;> simp [smoothK_eq]
  set ksm := if sk then smoothKval k else k with hksm_def
  have hksm : ksm.shape = (B, H, D, D) := by
    cases sk <;> simp [hksm_def, smoothKval_shape, hk]
  rw [dequantScores, hks, Option.some_bind]
  have h1 : matmulInt8 (quantize_int8 q).1 (quantize_int8 ksm).1
      = some ⟨(B, H, M, D), fun bb hh2 i2 j2 =>
          wrap8 (∑ t ∈ Finset.range D,
            (quantize_int8 q).1.data (bIx B bb) (bIx H hh2) i2 t *
              (quantize_int8 ksm).1.data (bIx B bb) (bIx H hh2) t j2)⟩ := by
    rw [matmulInt8]
    simp [quantize1_shape, hq, hksm, bAxis_self]
  have h2 : zipB (fun a b => a * b) (quantize_int8 q).2
      (transpose0132 (quantize_int8 ksm).2)
      = some ⟨(B, H, M, D), fun bb hh2 i2 j2 =>
          (quantize_int8 q).2.data (bIx B bb) (bIx H hh2) (bIx M i2) 0 *
            (quantize_int8 ksm).2.data (bIx B bb) (bIx H hh2) (bIx D j2) 0⟩ := by
    rw [zipB]
    simp [quantize2_shape, transpose0132, hq, hksm, bShape4, bAxis_self,
      bAxis_one_right, bAxis_one_left, bIx_one]
  rw [h1, Option.some_bind, h2, Option.some_bind, zipB]
  simp [bShape4, bAxis_self, Tensor4.map]

theorem dequantScores_entry_smooth {α : Type} [LinearOrderedField α] [FloorRing α]
    (q k : Tensor4 α) (B H M D : Nat)
    (hq : q.shape = (B, H, M, D)) (hk : k.shape = (B, H, D, D))
    (b h i j : Nat) (hb : b < B) (hh : h < H) (hi : i < M) (hj : j < D) :
    (dequantScores q k true).map (fun t => t.data b h i j)
      = some (((wrap8 (∑ t ∈ Finset.range D,
            (quantize_int8 q).1.data b h i t *
              (quantize_int8 (smoothKval k)).1.data b h t j) : ℤ) : α) *
          ((quantize_int8 q).2.data b h i 0 *
            (quantize_int8 (smoothKval k)).2.data b h j 0)) := by
  rw [dequantScores_entry q k true B H M D hq hk b h i j hb hh hi hj, smoothK_eq]
  rfl

theorem dequantScores_shape_smooth {α : Type} [LinearOrderedField α] [FloorRing α]
    (q k : Tensor4 α) (B H M D : Nat)
    (hq : q.shape = (B, H, M, D)) (hk : k.shape = (B, H, D, D)) :
    (dequantScores q k true).map (fun t => t.shape) = some (B, H, M, D) := by
  rw [dequantScores_shape q k true B H M D hq hk, smoothK_eq]
  rfl

theorem dequantScores_none {α : Type} [LinearOrderedField α] [FloorRing α]
    (q k : Tensor4 α) (sk : Bool) (B H M D N : Nat)
    (hq : q.shape = (B, H, M, D)) (hk : k.shape = (B, H, D, N))
    (hND : N ≠ D) (hN1 : N ≠ 1) (hD1 : D ≠ 1) :
    dequantScores q k sk = none := by
  have hks : (if sk then smoothK k else some k)
      = some (if sk then smoothKval k else k) := by
    cases sk <;> simp [smoothK_eq]
  set ksm := if sk then smoothKval k else k with hksm_def
  have hksm : ksm.shape = (B, H, D, N) := by
    cases sk <;> simp [hksm_def, smoothKval_shape, hk]
  rw [dequantScores, hks, Option.some_bind]
  have h1 : matmulInt8 (quantize_int8 q).1 (quantize_int8 ksm).1
      = some ⟨(B, H, M, N), fun bb hh2 i2 j2 =>
          wrap8 (∑ t ∈ Finset.range D,
            (quantize_int8 q).1.data (bIx B bb) (bIx H hh2) i2 t *
              (quantize_int8 ksm).1.data (bIx B bb) (bIx H hh2) t j2)⟩ := by
    rw [matmulInt8]
    simp [quantize1_shape, hq, hksm, bAxis_self]
  have h2 : zipB (fun a b => a * b) (quantize_int8 q).2
      (transpose0132 (quantize_int8 ksm).2)
      = some ⟨(B, H, M, D), fun bb hh2 i2 j2 =>
          (quantize_int8 q).2.data (bIx B bb) (bIx H hh2) (bIx M i2) 0 *
            (quantize_int8 ksm).2.data (bIx B bb) (bIx H hh2) (bIx D j2) 0⟩ := by
    rw [zipB]
    simp [quantize2_shape, transpose0132, hq, hksm, bShape4, bAxis_self,
      bAxis_one_right, bAxis_one_left, bIx_one]
  rw [h1, Option.some_bind, h2, Option.some_bind, zipB]
  simp [Tensor4.map, bShape4, bAxis, bAxis_self, hND, hN1, hD1]

/-- Claim C1: the spec asserts `sageattn` is pure and total over well-formed
inputs (`Q : [b,h,q_len,head_dim]`, `K : [b,h,head_dim,kv_len]`,
`V : [b,h,kv_len,head_dim]`) for every choice of `q_len`, `kv_len`,
`head_dim`. The code is not: on the well-formed input `q1`/`k1`/`v1`
(`q_len = 1`, `head_dim = 4`, `kv_len = 2`) the dequantization multiply of
the `[1,1,1,2]` integer-score tensor by the `[1,1,1,4]` scale outer product
is a broadcast error (`none`), and so is the whole kernel. -/
theorem c1_sageattn_not_total :
    dequantScores q1 k1 true = none ∧
    sageattn (castT4 q1) (castT4 k1) (castT4 v1) mp4 none false true = none := by
  constructor
  · exact dequantScores_none q1 k1 true 1 1 1 4 2 rfl rfl
      (by norm_num) (by norm_num) (by norm_num)
  · rw [sageattn, dequantScores_none (castT4 q1) (castT4 k1) true 1 1 1 4 2 rfl rfl
      (by norm_num) (by norm_num) (by norm_num)]
    rfl

/-- Claim C2: the claim says that in a single-query decode step at absolute
position `cur_pos = 2` (`q_len = 1`, `kv_len = 3`) no key position in
`[0, 2]` is masked. In the code `jnp.tril` is aligned to the top-left of
the non-square `[q_len, kv_len]` score matrix, so the mask keeps only
`j ≤ i` with `i` the within-step row index: for the decode row `i = 0` the
key positions 1 and 2 — both `≤ cur_pos` — are sent to `-inf` (`none`),
and only key 0 survives. -/
theorem c2_decode_masks_history :
    ((dequantScores qDec kA true).bind (fun s => maskScores s none true)).map
      (fun m => ((m.data 0 0 0 0).isSome, (m.data 0 0 0 1).isSome,
        (m.data 0 0 0 2).isSome)) = some (true, false, false) := by
  obtain ⟨s, hs, -⟩ := Option.map_eq_some'.mp
    (dequantScores_shape_smooth qDec kA 1 1 1 3 rfl rfl)
  rw [hs, Option.some_bind, maskScores_none_true, Option.map_some']
  simp [trilMask]

/-- Claim C4: the claim (with the spec) says smoothing subtracts the mean
of `K` over the key-length axis, one mean per channel. The code's
`jnp.mean(k, axis=-2)` averages over the `head_dim` axis instead: on the
`[1,1,2,2]` key `k4` (channel rows `(1,2)` and `(3,4)`) the code produces
`1 - mean(1,3) = -1` at entry `(0,0)` while the spec's key-length mean
gives `1 - mean(1,2) = -1/2`. -/
theorem c4_smoothing_wrong_axis :
    (smoothK k4).map (fun t => t.data 0 0 0 0) = some (-1) ∧
    (smoothKSpecKeyLen k4).data 0 0 0 0 = -(1/2) ∧
    ((-1 : ℚ) ≠ -(1/2)) := by
  refine ⟨?_, ?_, by norm_num⟩
  · rw [smoothK_eq, Option.map_some']
    norm_num [smoothKval, k4, Finset.sum_range_succ, bIx]
  · norm_num [smoothKSpecKeyLen, k4, Finset.sum_range_succ]

theorem wrap8_eq_self {z : ℤ} (h1 : -128 ≤ z) (h2 : z ≤ 127) : wrap8 z = z := by
  unfold wrap8
  omega

theorem roundHalfEven_sub_abs_le {α : Type} [LinearOrderedField α] [FloorRing α]
    (x : α) : |(roundHalfEven x : α) - x| ≤ 1/2 := by
  have h0 : (⌊x⌋ : α) ≤ x := Int.floor_le x
  have h1 : x < ⌊x⌋ + 1 := Int.lt_floor_add_one x
  unfold roundHalfEven
  split_ifs with hc1 hc2 hc3
  · rw [abs_sub_comm, abs_of_nonneg (by linarith)]
    linarith
  · push_cast
    rw [abs_of_nonneg (by linarith)]
    linarith
  · have hx : x - ⌊x⌋ = 1/2 := le_antisymm (not_lt.mp hc2) (not_lt.mp hc1)
    rw [abs_sub_comm, abs_of_nonneg (by linarith)]
    linarith
  · have hx : x - ⌊x⌋ = 1/2 := le_antisymm (not_lt.mp hc2) (not_lt.mp hc1)
    push_cast
    rw [abs_of_nonneg (by linarith)]
    linarith

theorem abs_le_foldr_max {α : Type} [LinearOrderedField α] (f : Nat → α)
    (init : α) :
    ∀ (l : List Nat) (j : Nat), j ∈ l →
      |f j| ≤ l.foldr (fun i acc => max |f i| acc) init := by
  intro l
  induction l with
  | nil => intro j hj; simp at hj
  | cons a as ih =>
      intro j hj
      rcases List.mem_cons.mp hj with h | h
      · subst h; exact le_max_left _ _
      · exact le_trans (ih j h) (le_max_right _ _)

theorem abs_le_maxAbsRange {α : Type} [LinearOrderedField α] (n : Nat)
    (f : Nat → α) (j : Nat) (hj : j < n) : |f j| ≤ maxAbsRange n f :=
  abs_le_foldr_max f 0 (List.range n) j (List.mem_range.mpr hj)

/-- Claim C7: per-row int8 quantization round-trip bound. For any row entry
(with the row's scale positive, i.e. the row not all zero, which is also
what keeps the code's `row / scale` away from `0/0`), dequantizing the
quantized entry by multiplying with the scale differs from the original
entry by at most `scale / 2`. -/
theorem c7_quantize_roundtrip (x : Tensor4 ℚ) (b h i j : Nat)
    (hj : j < x.shape.2.2.2)
    (hs : 0 < (quantize_int8 x).2.data b h i 0) :
    |((quantize_int8 x).1.data b h i j : ℚ) * (quantize_int8 x).2.data b h i 0
        - x.data b h i j|
      ≤ (quantize_int8 x).2.data b h i 0 / 2 := by
  rw [quantize2_data] at hs ⊢
  rw [quantize1_data]
  set M := maxAbsRange x.shape.2.2.2 (fun t => x.data b h i t) with hM
  set s := M / 127 with hsdef
  have hs' : 0 < s := hs
  have hM0 : M = 127 * s := by rw [hsdef]; ring
  have hxle : |x.data b h i j| ≤ M := abs_le_maxAbsRange _ _ j hj
  set y := x.data b h i j / s with hy
  have hyle : |y| ≤ 127 := by
    rw [hy, abs_div, abs_of_pos hs', div_le_iff₀ hs']
    rw [hM0] at hxle
    linarith
  have hyb := abs_le.mp hyle
  have hr := roundHalfEven_sub_abs_le y
  have hrb := abs_le.mp hr
  have hrle : roundHalfEven y ≤ 127 := by
    by_contra hcon
    push_neg at hcon
    have h128 : (128 : ℚ) ≤ (roundHalfEven y : ℚ) := by exact_mod_cast hcon
    linarith [hrb.1, hyb.2]
  have hrge : -128 ≤ roundHalfEven y := by
    by_contra hcon
    push_neg at hcon
    have h129' : roundHalfEven y ≤ -129 := by omega
    have h129 : (roundHalfEven y : ℚ) ≤ -129 := by exact_mod_cast h129'
    linarith [hrb.2, hyb.1]
  rw [wrap8_eq_self hrge hrle]
  have hxy : x.data b h i j = y * s := by
    rw [hy]
    field_simp
  rw [hxy, show (roundHalfEven y : ℚ) * s - y * s = ((roundHalfEven y : ℚ) - y) * s by ring,
    abs_mul, abs_of_pos hs']
  calc |(roundHalfEven y : ℚ) - y| * s ≤ (1/2) * s :=
        mul_le_mul_of_nonneg_right hr (le_of_lt hs')
  _ = s / 2 := by ring

/-- Witness for C7 at the concrete row `(1, 2, 3)` (scale `3/127`). -/
theorem c7_witness :
    0 < (quantize_int8 xW7).2.data 0 0 0 0 ∧
    |((quantize_int8 xW7).1.data 0 0 0 0 : ℚ) * (quantize_int8 xW7).2.data 0 0 0 0
        - xW7.data 0 0 0 0| ≤ (quantize_int8 xW7).2.data 0 0 0 0 / 2 :=
  ⟨by rw [quantize2_data]; norm_num [xW7, maxAbsRange, List.range_succ],
   c7_quantize_roundtrip xW7 0 0 0 0 (by norm_num [xW7])
     (by rw [quantize2_data]; norm_num [xW7, maxAbsRange, List.range_succ])⟩

/-- Claim C6: inside `sageattn` the matrix product of the quantized `Q` and
(smoothed) `K` is carried out in the `int8` dtype, so each dot product
accumulated over the contracted axis wraps modulo 2^8 (`wrap8`) before the
cast to float and the multiplication by the two row scales; and whenever
the exact accumulated dot product fits in the signed 8-bit range the wrap
is the identity, so the dequantized score is the true integer dot product
times the row scales exactly in that case. -/
theorem c6_int8_matmul_wraps (q k : Tensor4 ℚ) (B H M D : Nat)
    (hq : q.shape = (B, H, M, D)) (hk : k.shape = (B, H, D, D))
    (b h i j : Nat) (hb : b < B) (hh : h < H) (hi : i < M) (hj : j < D) :
    ((dequantScores q k true).map (fun t => t.data b h i j)
      = some (((wrap8 (∑ t ∈ Finset.range D,
            (quantize_int8 q).1.data b h i t *
              (quantize_int8 (smoothKval k)).1.data b h t j) : ℤ) : ℚ) *
          ((quantize_int8 q).2.data b h i 0 *
            (quantize_int8 (smoothKval k)).2.data b h j 0)))
    ∧ (-128 ≤ (∑ t ∈ Finset.range D,
            (quantize_int8 q).1.data b h i t *
              (quantize_int8 (smoothKval k)).1.data b h t j) →
       (∑ t ∈ Finset.range D,
            (quantize_int8 q).1.data b h i t *
              (quantize_int8 (smoothKval k)).1.data b h t j) ≤ 127 →
       (dequantScores q k true).map (fun t => t.data b h i j)
         = some (((∑ t ∈ Finset.range D,
              (quantize_int8 q).1.data b h i t *
                (quantize_int8 (smoothKval k)).1.data b h t j : ℤ) : ℚ) *
            ((quantize_int8 q).2.data b h i 0 *
              (quantize_int8 (smoothKval k)).2.data b h j 0))) := by
  constructor
  · exact dequantScores_entry_smooth q k B H M D hq hk b h i j hb hh hi hj
  · intro hlo hhi
    rw [dequantScores_entry_smooth q k B H M D hq hk b h i j hb hh hi hj,
      wrap8_eq_self hlo hhi]

/-- Witness for C6 at `qW6`/`kW6` (the exact dot product there is 0, which
fits in the signed 8-bit range). -/
theorem c6_witness :
    ((dequantScores qW6 kW6 true).map (fun t => t.data 0 0 0 0)
      = some (((wrap8 (∑ t ∈ Finset.range 2,
            (quantize_int8 qW6).1.data 0 0 0 t *
              (quantize_int8 (smoothKval kW6)).1.data 0 0 t 0) : ℤ) : ℚ) *
          ((quantize_int8 qW6).2.data 0 0 0 0 *
            (quantize_int8 (smoothKval kW6)).2.data 0 0 0 0)))
    ∧ ((dequantScores qW6 kW6 true).map (fun t => t.data 0 0 0 0)
      = some (((∑ t ∈ Finset.range 2,
            (quantize_int8 qW6).1.data 0 0 0 t *
              (quantize_int8 (smoothKval kW6)).1.data 0 0 t 0 : ℤ) : ℚ) *
          ((quantize_int8 qW6).2.data 0 0 0 0 *
            (quantize_int8 (smoothKval kW6)).2.data 0 0 0 0))) :=
  ⟨(c6_int8_matmul_wraps qW6 kW6 1 1 1 2 rfl rfl 0 0 0 0 (by norm_num)
      (by norm_num) (by norm_num) (by norm_num)).1,
   (c6_int8_matmul_wraps qW6 kW6 1 1 1 2 rfl rfl 0 0 0 0 (by norm_num)
      (by norm_num) (by norm_num) (by norm_num)).2
     (by simp only [Finset.sum_range_succ, Finset.sum_range_zero, quantize1_data]
         norm_num [qW6, smoothKval, kW6, maxAbsRange, List.range_succ,
           roundHalfEven, wrap8, bIx, Finset.sum_range_succ, Int.fract, abs, max_def])
     (by simp only [Finset.sum_range_succ, Finset.sum_range_zero, quantize1_data]
         norm_num [qW6, smoothKval, kW6, maxAbsRange, List.range_succ,
           roundHalfEven, wrap8, bIx, Finset.sum_range_succ, Int.fract, abs, max_def])⟩

/-- Claim C8: with an all-ones `freqs_cis` (rotation angle 0, the complex
number `1 + 0i` at every position and pair) and an even trailing axis,
`apply_rotary_emb` is the identity on both inputs (the declared output
dtype cast is modelled as the identity). -/
theorem c8_rotary_identity (xq xk : Tensor4 ℚ) (fr : Nat → Nat → ℚ × ℚ)
    (hone : ∀ s m, fr s m = (1, 0))
    (hq2 : xq.shape.2.2.2 % 2 = 0) (hk2 : xk.shape.2.2.2 % 2 = 0) :
    apply_rotary_emb xq xk fr = (xq, xk) := by
  have hrot : ∀ x : Tensor4 ℚ, rotateHalf fr x = x := by
    intro x
    refine Tensor4.ext rfl ?_
    funext b s h i
    show (if i % 2 = 0 then
        x.data b s h (2 * (i / 2)) * (fr s (i / 2)).1 -
          x.data b s h (2 * (i / 2) + 1) * (fr s (i / 2)).2
      else
        x.data b s h (2 * (i / 2)) * (fr s (i / 2)).2 +
          x.data b s h (2 * (i / 2) + 1) * (fr s (i / 2)).1) = x.data b s h i
    rw [hone]
    by_cases hpar : i % 2 = 0
    · rw [if_pos hpar]
      simp only [mul_one, mul_zero, sub_zero]
      congr 1
      omega
    · rw [if_neg hpar]
      simp only [mul_one, mul_zero, zero_add]
      congr 1
      omega
  rw [apply_rotary_emb, hrot, hrot]

/-- Witness for C8 at concrete even-length inputs and the all-ones tensor. -/
theorem c8_witness : apply_rotary_emb xqW8 xkW8 frW8 = (xqW8, xkW8) :=
  c8_rotary_identity xqW8 xkW8 frW8 (fun _ _ => rfl) rfl rfl

theorem matmul4_eq {α : Type} [CommRing α] (x y : Tensor4 α)
    (B H M P N : Nat) (hx : x.shape = (B, H, M, P)) (hy : y.shape = (B, H, P, N)) :
    matmul4 x y = some ⟨(B, H, M, N), fun bb hh i j =>
      ∑ t ∈ Finset.range P,
        x.data (bIx B bb) (bIx H hh) i t * y.data (bIx B bb) (bIx H hh) t j⟩ := by
  rw [matmul4]
  simp [hx, hy, bAxis_self]

theorem sqrt_four : Real.sqrt 4 = 2 := by
  rw [show (4 : ℝ) = 2 ^ 2 by norm_num]
  exact Real.sqrt_sq (by norm_num)

/-- Claim C3: the claim (with the spec) says the tensor to which the masks
and the softmax are applied is the dequantized score tensor divided by
`sqrt(head_dim)`, i.e. that the softmax input equals `pre_softmax_scores`
plus the masks. In the code only `pre_scores` is divided: on `q3R`/`k3R`
(`head_dim = 4`) the softmax input entry is `129/16129` while the
`pre_softmax_scores` entry is `129/32258`, and with no explicit mask these
differ — the softmax is applied to the unscaled scores. -/
theorem c3_softmax_input_not_scaled :
    (((dequantScores q3R k3R true).bind (fun s => maskScores s none false)).map
        (fun m => m.data 0 0 0 0) = some (some ((129 : ℝ)/16129))) ∧
    ((sageattn q3R k3R v3R mp4 none false true).map (fun r => r.2.data 0 0 0 0)
      = some ((129 : ℝ)/32258)) ∧
    ((129 : ℝ)/16129 ≠ 129/32258 + 0) := by
  have hent : (dequantScores q3R k3R true).map (fun t => t.data 0 0 0 0)
      = some ((129 : ℝ)/16129) := by
    rw [dequantScores_entry_smooth q3R k3R 1 1 1 4 rfl rfl 0 0 0 0
      (by norm_num) (by norm_num) (by norm_num) (by norm_num)]
    simp only [Finset.sum_range_succ, Finset.sum_range_zero, quantize1_data,
      quantize2_data]
    norm_num [q3R, smoothKval, k3R, maxAbsRange, List.range_succ, roundHalfEven,
      wrap8, bIx, Finset.sum_range_succ, Int.fract, abs, max_def]
  have hsh := dequantScores_shape_smooth q3R k3R 1 1 1 4 rfl rfl
  obtain ⟨s, hs, hsv⟩ := Option.map_eq_some'.mp hent
  rw [hs, Option.map_some'] at hsh
  have hss : s.shape = (1, 1, 1, 4) := by simpa using hsh
  refine ⟨?_, ?_, by norm_num⟩
  · rw [hs, Option.some_bind, maskScores_none_false, Option.map_some']
    simp [Tensor4.map, hsv]
  · rw [sageattn, hs, Option.some_bind, maskScores_none_false, Option.some_bind]
    rw [matmul4_eq (softmaxMasked (Tensor4.map some s)) v3R 1 1 1 4 4
      (by simp [softmaxMasked, Tensor4.map, hss]) rfl]
    rw [Option.map_map, Option.map_some']
    simp only [Function.comp]
    refine congrArg some ?_
    show (preScale s mp4).data 0 0 0 0 = (129 : ℝ)/32258
    simp only [preScale, hsv]
    rw [show ((mp4.head_dim : ℕ) : ℝ) = 4 by norm_num [mp4], sqrt_four]
    norm_num

theorem optExp_none : optExp none = 0 := rfl

theorem optExp_some (x : ℝ) : optExp (some x) = Real.exp x := rfl

theorem sage_causal_out_entry (q k v : Tensor4 ℝ) (mp : ModelParams)
    (s : Tensor4 ℝ) (hs : dequantScores q k true = some s)
    (hss : s.shape = (1, 1, 2, 3)) (hv : v.shape = (1, 1, 3, 3)) :
    (sageattn q k v mp none true true).map (fun r => r.1.data 0 0 1 1)
      = some (∑ t ∈ Finset.range 3,
          (optExp (if t ≤ 1 then some (s.data 0 0 1 t) else none) /
            ∑ u ∈ Finset.range 3,
              optExp (if u ≤ 1 then some (s.data 0 0 1 u) else none)) *
            v.data 0 0 t 1) := by
  rw [sageattn, hs, Option.some_bind, maskScores_none_true, Option.some_bind]
  rw [matmul4_eq (softmaxMasked (trilMask s)) v 1 1 2 3 3
    (by simp [softmaxMasked, trilMask, hss]) hv]
  rw [Option.map_map, Option.map_some']
  refine congrArg some ?_
  simp only [Function.comp]
  simp [softmaxMasked, trilMask, bIx_one, hss]

theorem kAR_entry_10 : (dequantScores qCR kAR true).map (fun t => t.data 0 0 1 0)
    = some ((-128 : ℝ)/16129) := by
  rw [dequantScores_entry_smooth qCR kAR 1 1 2 3 rfl rfl 0 0 1 0
    (by norm_num) (by norm_num) (by norm_num) (by norm_num)]
  simp only [Finset.sum_range_succ, Finset.sum_range_zero, quantize1_data,
    quantize2_data]
  norm_num [qCR, smoothKval, kAR, maxAbsRange, List.range_succ, roundHalfEven,
    wrap8, bIx, Finset.sum_range_succ, Int.fract, abs, max_def]

theorem kAR_entry_11 : (dequantScores qCR kAR true).map (fun t => t.data 0 0 1 1)
    = some ((2 : ℝ)/16129) := by
  rw [dequantScores_entry_smooth qCR kAR 1 1 2 3 rfl rfl 0 0 1 1
    (by norm_num) (by norm_num) (by norm_num) (by norm_num)]
  simp only [Finset.sum_range_succ, Finset.sum_range_zero, quantize1_data,
    quantize2_data]
  norm_num [qCR, smoothKval, kAR, maxAbsRange, List.range_succ, roundHalfEven,
    wrap8, bIx, Finset.sum_range_succ, Int.fract, abs, max_def]

theorem kBR_entry_10 : (dequantScores qCR kBR true).map (fun t => t.data 0 0 1 0)
    = some ((-128 : ℝ)/16129) := by
  rw [dequantScores_entry_smooth qCR kBR 1 1 2 3 rfl rfl 0 0 1 0
    (by norm_num) (by norm_num) (by norm_num) (by norm_num)]
  simp only [Finset.sum_range_succ, Finset.sum_range_zero, quantize1_data,
    quantize2_data]
  norm_num [qCR, smoothKval, kBR, maxAbsRange, List.range_succ, roundHalfEven,
    wrap8, bIx, Finset.sum_range_succ, Int.fract, abs, max_def]

theorem kBR_entry_11 : (dequantScores qCR kBR true).map (fun t => t.data 0 0 1 1)
    = some ((-128 : ℝ)/16129) := by
  rw [dequantScores_entry_smooth qCR kBR 1 1 2 3 rfl rfl 0 0 1 1
    (by norm_num) (by norm_num) (by norm_num) (by norm_num)]
  simp only [Finset.sum_range_succ, Finset.sum_range_zero, quantize1_data,
    quantize2_data]
  norm_num [qCR, smoothKval, kBR, maxAbsRange, List.range_succ, roundHalfEven,
    wrap8, bIx, Finset.sum_range_succ, Int.fract, abs, max_def]

/-- Claim C5: the claim says that with `causal=True` the attention output
at a query position `p` is invariant to changes in key/value content at
positions `> p` (including with key smoothing at its default setting). On
`qCR`/`vCR` with keys `kAR` and `kBR` — identical at key positions 0 and 1,
different only in the key at position 2 — the output at query position 1
differs between the two runs: `K`'s per-channel quantization scale is taken
across the whole key-length axis, so the key at position 2 changes the
quantized values of the keys at positions 0 and 1 and thereby the masked
softmax weights. -/
theorem c5_causal_invariance_fails :
    (kAR.data 0 0 0 0 = kBR.data 0 0 0 0 ∧ kAR.data 0 0 1 0 = kBR.data 0 0 1 0 ∧
     kAR.data 0 0 2 0 = kBR.data 0 0 2 0 ∧ kAR.data 0 0 0 1 = kBR.data 0 0 0 1 ∧
     kAR.data 0 0 1 1 = kBR.data 0 0 1 1 ∧ kAR.data 0 0 2 1 = kBR.data 0 0 2 1) ∧
    (sageattn qCR kAR vCR mp3 none true true).map (fun r => r.1.data 0 0 1 1)
      ≠ (sageattn qCR kBR vCR mp3 none true true).map (fun r => r.1.data 0 0 1 1) := by
  refine ⟨⟨rfl, rfl, rfl, rfl, rfl, rfl⟩, ?_⟩
  obtain ⟨sA, hsA, hvA0⟩ := Option.map_eq_some'.mp kAR_entry_10
  have hvA1 : sA.data 0 0 1 1 = (2 : ℝ)/16129 := by
    have h := kAR_entry_11
    rw [hsA, Option.map_some'] at h
    simpa using h
  have hssA : sA.shape = (1, 1, 2, 3) := by
    have h := dequantScores_shape_smooth qCR kAR 1 1 2 3 rfl rfl
    rw [hsA, Option.map_some'] at h
    simpa using h
  obtain ⟨sB, hsB, hvB0⟩ := Option.map_eq_some'.mp kBR_entry_10
  have hvB1 : sB.data 0 0 1 1 = (-128 : ℝ)/16129 := by
    have h := kBR_entry_11
    rw [hsB, Option.map_some'] at h
    simpa using h
  have hssB : sB.shape = (1, 1, 2, 3) := by
    have h := dequantScores_shape_smooth qCR kBR 1 1 2 3 rfl rfl
    rw [hsB, Option.map_some'] at h
    simpa using h
  rw [sage_causal_out_entry qCR kAR vCR mp3 sA hsA hssA rfl,
      sage_causal_out_entry qCR kBR vCR mp3 sB hsB hssB rfl]
  simp only [Finset.sum_range_succ, Finset.sum_range_zero, hvA0, hvA1, hvB0, hvB1]
  norm_num [vCR, optExp_some, optExp_none]
  intro hEq
  set u := Real.exp (-((128 : ℝ) / 16129)) with hu_def
  set w := Real.exp ((2 : ℝ) / 16129) with hw_def
  have hu : 0 < u := Real.exp_pos _
  have hw : 0 < w := Real.exp_pos _
  have hlt : u < w := by
    rw [hu_def, hw_def]
    exact Real.exp_lt_exp.mpr (by norm_num)
  have hB : u / (u + u) = 1 / 2 := by
    rw [div_eq_iff (by linarith)]
    ring
  rw [hB] at hEq
  have hA : 1 / 2 < w / (u + w) := by
    rw [lt_div_iff₀ (by linarith)]
    linarith
  rw [hEq] at hA
  exact lt_irrefl _ hA

/-- Claim C9: the causal flag `attention` passes to the kernel is exactly
the predicate `cur_pos > 0` (model.py line 81): a call with `cur_pos = 0`
behaves exactly like the layer with the kernel's causal mask forced off,
regardless of the step's sequence length, and every call with
`cur_pos > 0` behaves exactly like the layer with the causal mask forced
on. -/
theorem c9_causal_flag (x : Tensor3 ℝ) (lw : LayerWeights) (mp : ModelParams)
    (cur_pos layer_idx : Nat) (fr : Nat → Nat → ℝ × ℝ) (kv : KVCache)
    (am : Option (Tensor4 ℝ)) :
    (cur_pos = 0 →
      attention x lw mp cur_pos layer_idx fr kv am
        = attentionNoCausal x lw mp cur_pos layer_idx fr kv am) ∧
    (0 < cur_pos →
      attention x lw mp cur_pos layer_idx fr kv am
        = attentionCausal x lw mp cur_pos layer_idx fr kv am) := by
  constructor
  · intro h
    subst h
    rfl
  · intro h
    have hd : decide (0 < cur_pos) = true := decide_eq_true h
    simp only [attention, attentionCausal, hd]

/-- Witness for C9 at concrete inputs, at `cur_pos = 0` and `cur_pos = 1`. -/
theorem c9_witness :
    attention xW9 lwW9 mpW9 0 0 frW9 kvW9 none
      = attentionNoCausal xW9 lwW9 mpW9 0 0 frW9 kvW9 none ∧
    attention xW9 lwW9 mpW9 1 0 frW9 kvW9 none
      = attentionCausal xW9 lwW9 mpW9 1 0 frW9 kvW9 none :=
  ⟨(c9_causal_flag xW9 lwW9 mpW9 0 0 frW9 kvW9 none).1 rfl,
   (c9_causal_flag xW9 lwW9 mpW9 1 0 frW9 kvW9 none).2 (by norm_num)⟩

theorem lastOr_cons {α : Type} (sc0 : Option α) (a : α) (l : List α) :
    lastOr sc0 (a :: l) = lastOr (some a) l := by
  cases l with
  | nil => simp [lastOr]
  | cons b bs =>
      obtain ⟨x, hx⟩ := Option.isSome_iff_exists.mp
        (List.getLast?_isSome.mpr (List.cons_ne_nil b bs))
      simp [lastOr, List.getLast?_cons_cons, hx]

theorem lastOr_none {α : Type} (l : List α) : lastOr none l = l.getLast? := by
  unfold lastOr
  cases l.getLast? <;> rfl

theorem xfmrLoop_eq (w : XfmrWeights) (mp : ModelParams) (cur_pos : Nat)
    (fr : Nat → Nat → ℝ × ℝ) (am : Option (Tensor4 ℝ)) :
    ∀ (L : List Nat) (h0 : Tensor3 ℝ) (kv : KVCache) (sc0 : Option (Tensor4 ℝ))
      (st : AttnStats),
      List.foldlM (xfmrLayerStep w mp cur_pos fr am) (⟨h0, kv, sc0, st⟩ : LoopSt) L
        = (runLayersInOrder w mp cur_pos fr am h0 kv L).map fun r =>
            (⟨r.1, r.2.1, lastOr sc0 (r.2.2.map Prod.snd),
              ⟨st.bsz, st.n_layers, st.n_heads,
                st.updates ++ r.2.2.map fun p => (p.1, lastPos p.2)⟩⟩ : LoopSt) := by
  intro L
  induction L with
  | nil =>
      intro h0 kv sc0 st
      simp [runLayersInOrder, lastOr]
  | cons i rest ih =>
      intro h0 kv sc0 st
      rw [List.foldlM_cons, runLayersInOrder]
      cases hatt : attention (rms_norm h0 (w.layer_weights i).attention_norm)
          (w.layer_weights i) mp cur_pos i fr kv am with
      | none => simp [xfmrLayerStep, hatt]
      | some r =>
          simp only [xfmrLayerStep, hatt, Option.map_some', Option.bind_eq_bind,
            Option.some_bind]
          rw [ih]
          cases hrec : runLayersInOrder w mp cur_pos fr am
              (addT3 (addT3 h0 r.1) (feed_forward (rms_norm (addT3 h0 r.1)
                (w.layer_weights i).ffn_norm) (w.layer_weights i))) r.2.1 rest with
          | none => simp
          | some rr =>
              simp only [Option.map_some', Option.some_bind]
              simp [AttnStats.update, lastOr_cons, List.append_assoc]

/-- Claim C10: the forward orchestrator `xfmr` coincides with its in-order
specification `xfmrOrderedSpec`: all `n_layers` layers are executed
strictly in index order with no branching or early exit, the `AttnStats`
accumulator receives exactly one update per layer, in order, each with
that layer's scores at the last query position, and the returned tuple is
the logits, the final threaded cache, the last layer's pre-softmax scores
and the populated stats. -/
theorem c10_xfmr_ordered (w : XfmrWeights) (mp : ModelParams)
    (tokens : Tensor2 Nat) (cur_pos : Nat) (fr : Nat → Nat → ℝ × ℝ)
    (kv : KVCache) (am : Option (Tensor4 ℝ)) :
    xfmr w mp tokens cur_pos fr kv am
      = xfmrOrderedSpec w mp tokens cur_pos fr kv am := by
  rw [xfmr, xfmrOrderedSpec, xfmrLoop_eq]
  cases hrec : runLayersInOrder w mp cur_pos fr am (embedTokens w tokens) kv
      (List.range mp.n_layers) with
  | none => rfl
  | some r =>
      simp only [Option.map_some', Option.bind_eq_bind, Option.some_bind]
      cases hlast : (r.2.2.map Prod.snd).getLast? with
      | none => simp [lastOr_none, hlast, AttnStats.new]
      | some sc => simp [lastOr_none, hlast, AttnStats.new]
